import Mathlib

/-!
Verification development for the quantization conv rewrite rules
(onnxruntime/python/tools/quantization/operators/conv.py) and the GPT-2
decode/parity harness (gpt2_helper.py, gpt2_tester.py), embedded shallowly.
-/

namespace OnnxQuant

/-- An ONNX node, as produced by onnx.helper.make_node: operator type, node
name, ordered input names, ordered output names, plus the attribute bag
(carried over unchanged by the rewrites, kept abstract as key/value pairs). -/
structure NodeProto where
  op_type : String
  name : String
  inputs : List String
  outputs : List String
  attrs : List (String × Int)
deriving DecidableEq

/-- quant_utils.find_by_name: the first item of the list whose name equals
the given name, or None. -/
def findByName (nm : String) : List NodeProto → Option NodeProto
  | [] => none
  | nd :: rest => if nd.name = nm then some nd else findByName nm rest

/-- quant_utils.get_mul_node(inputs, output, name): a Mul node. -/
def getMulNode (inputs : List String) (output : String) (name : String) : NodeProto :=
  ⟨"Mul", name, inputs, [output], []⟩

/-- Association-list lookup by key (first match), modelling Python dict
lookup for the deterministic-name memoization caches and buffer maps. -/
def lookupKey {κ : Type} [DecidableEq κ] (k : κ) : List (κ × α) → Option α
  | [] => none
  | (k2, v) :: rest => if k2 = k then some v else lookupKey k rest

/-- quant_utils.QuantizedValue: the memoized record of a quantized tensor
(original name, quantized name, scale name, zero-point name), extended with
the number of scale/zero-point values produced (1 for per-tensor, the
output-channel count for per-channel) and the channel axis used. -/
structure QuantizedValue where
  original : String
  quantized : String
  scale_name : String
  zp_name : String
  channels : Nat
  axis : Nat
deriving DecidableEq

/-- Recorded quantization parameters for a tensor: names of its scale and
zero-point tensors. -/
structure QParams where
  scale_name : String
  zp_name : String
deriving DecidableEq

/-- The enclosing ONNXQuantizer state, restricted to the parts the Conv
rewrites read and write: the graph initializers (name, dims), the
per-channel flag, the recorded quantization parameters, the emitted-node
list new_nodes, initializers added by rewrites, and the quantized-value
memoization map. -/
structure Quantizer where
  inits : List (String × List Nat)
  per_channel : Bool
  qparams : List (String × QParams)
  new_nodes : List NodeProto
  new_inits : List (String × List Int)
  quantized_value_map : List (String × QuantizedValue)
deriving DecidableEq

/-- Errors raised by the rewrites, one constructor per distinguishable
ValueError site in conv.py (plus assertion failure). -/
inductive QuantError where
  | expectedInitializer (tensor : String)
  | missingQuantParams (tensor : String) (node : String)
  | assertFailed
deriving DecidableEq

/-- node.input[i] of an ONNX node (empty when absent). -/
def inputName (node : NodeProto) (i : Nat) : String := node.inputs.getD i ""

/-- node.output[i] of an ONNX node (empty when absent). -/
def outputName (node : NodeProto) (i : Nat) : String := node.outputs.getD i ""

/-- ONNXQuantizer.is_input_a_weight, modelled as: the name is a graph
initializer. -/
def isInputAWeight (q : Quantizer) (t : String) : Bool :=
  (lookupKey t q.inits).isSome

/-- Modelled from the spec: per-tensor quantization of one input tensor by
the enclosing quantizer (ONNXQuantizer.quantize_inputs body for one index,
which is not under src/). Per the spec's QuantizedTensorEntry data model it
is memoized by tensor name: a tensor already quantized reuses its entry and
emits nothing; otherwise a quantize node is emitted and an entry with
derived deterministic names is recorded. Returns
((quantized name, zero-point name, scale name), emitted nodes, quantizer). -/
def quantizeTensorModelled (q : Quantizer) (t : String) :
    (String × String × String) × List NodeProto × Quantizer :=
  match lookupKey t q.quantized_value_map with
  | some qv => ((qv.quantized, qv.zp_name, qv.scale_name), [], q)
  | none =>
      let qname := t ++ "_quantized"
      let sname := t ++ "_scale"
      let zname := t ++ "_zero_point"
      let nd : NodeProto := ⟨"QuantizeLinear", t ++ "_QuantizeLinear", [t, sname, zname], [qname], []⟩
      ((qname, zname, sname), [nd],
        { q with quantized_value_map := (t, ⟨t, qname, sname, zname, 1, 0⟩) :: q.quantized_value_map })

/-- Modelled from the spec: ONNXQuantizer.quantize_inputs (not under src/)
over a list of input indices, returning
(quantized input names, zero-point names, scale names, emitted nodes) and
the updated quantizer, exactly the tuple shape conv.py destructures. -/
def quantizeInputsModelled (q : Quantizer) (node : NodeProto) (idxs : List Nat) :
    (List String × List String × List String × List NodeProto) × Quantizer :=
  match idxs with
  | [] => (([], [], [], []), q)
  | i :: rest =>
      let r := quantizeTensorModelled q (inputName node i)
      let rr := quantizeInputsModelled r.2.2 node rest
      ((r.1.1 :: rr.1.1, r.1.2.1 :: rr.1.2.1, r.1.2.2 :: rr.1.2.2.1, r.2.1 ++ rr.1.2.2.2), rr.2)

/-- Modelled from the spec: ONNXQuantizer.quantize_weight_per_channel (not
under src/). Per the spec it produces one scale and one zero-point per
output channel along the given axis; the channel count is the weight
initializer's dimension at that axis. Memoized like any quantized tensor.
Returns (quantized name, zero-point name, scale name) — the tuple order
conv.py destructures — and the updated quantizer. -/
def quantizeWeightPerChannelModelled (q : Quantizer) (w : String) (axis : Nat) :
    (String × String × String) × Quantizer :=
  match lookupKey w q.quantized_value_map with
  | some qv => ((qv.quantized, qv.zp_name, qv.scale_name), q)
  | none =>
      let channels := match lookupKey w q.inits with
        | some dims => dims.getD axis 1
        | none => 1
      let qname := w ++ "_quantized"
      let sname := w ++ "_scale"
      let zname := w ++ "_zero_point"
      (((qname, zname, sname)),
        { q with quantized_value_map := (w, ⟨w, qname, sname, zname, channels, axis⟩) :: q.quantized_value_map })

/-- Modelled from the spec: ONNXQuantizer.quantize_bias_static (not under
src/). Per the spec the bias is quantized as int32 with scale = input scale
times weight scale and zero-point 0, producing a new initializer (no
nodes); memoized by bias name. Returns the quantized bias name. -/
def quantizeBiasStaticModelled (q : Quantizer) (bias inputTensorName weightName : String) :
    String × Quantizer :=
  match lookupKey bias q.quantized_value_map with
  | some qv => (qv.quantized, q)
  | none =>
      let qname := bias ++ "_quantized"
      (qname,
        { q with quantized_value_map :=
            (bias, ⟨bias, qname, inputTensorName ++ "_scale_" ++ weightName ++ "_scale", "", 1, 0⟩) ::
              q.quantized_value_map })

/-- Modelled from the spec: ONNXQuantizer._get_quantization_params (not
under src/): quantization-parameter lookup returning the recorded
(scale name, zero-point name) for a tensor, or not-found. -/
def getQuantizationParamsModelled (q : Quantizer) (t : String) : Option QParams :=
  lookupKey t q.qparams

/-- ConvInteger.add_bias from conv.py: looks up the weight initializer
(raising the expected-initializer error when absent), emits a Reshape of
the bias to a broadcast shape plus an Add producing the original output
name, and registers the shape initializer. Returns the extended local node
list and quantizer, or the error. -/
def convIntegerAddBias (q : Quantizer) (node : NodeProto) (nodes : List NodeProto)
    (scaledOutput : String) : Except QuantError (List NodeProto × Quantizer) :=
  match lookupKey (inputName node 1) q.inits with
  | none => Except.error (QuantError.expectedInitializer (inputName node 1))
  | some dims =>
      let output := outputName node 0
      let reshapeInputData := inputName node 2
      let reshapeInputShape := output ++ "_bias_reshape_shape"
      let reshapeOutput := output ++ "_bias_reshape_output"
      let shape : List Int := (List.replicate dims.length (1 : Int)).set 1 (-1)
      let q2 := { q with new_inits := q.new_inits ++ [(reshapeInputShape, shape)] }
      let reshapeNode : NodeProto := ⟨"Reshape", "", [reshapeInputData, reshapeInputShape], [reshapeOutput], []⟩
      let addNode : NodeProto := ⟨"Add", output ++ "_bias_add", [scaledOutput, reshapeOutput], [output], []⟩
      Except.ok (nodes ++ [reshapeNode, addNode], q2)

/-- ConvInteger.quantize from conv.py: quantize inputs 0 and 1, emit a
ConvInteger node, a Cast to float, the memoized scales Mul (searched by its
derived name in the quantizer's new_nodes), the output-scale Mul, the bias
Reshape/Add when a third input is present, then append all these nodes to
the quantizer's new_nodes. Returns the post-state plus the raised error if
any (the state still carries mutations made before the raise, as in
Python). -/
def convIntegerQuantize (q0 : Quantizer) (node : NodeProto) : Quantizer × Option QuantError :=
  if node.op_type ≠ "Conv" then (q0, some QuantError.assertFailed) else
  let r := quantizeInputsModelled q0 node [0, 1]
  let quantizedInputNames := r.1.1
  let zeroPointNames := r.1.2.1
  let scaleNames := r.1.2.2.1
  let nodes := r.1.2.2.2
  let q1 := r.2
  let convIntegerOutput := outputName node 0 ++ "_output_quantized"
  let convIntegerName := if node.name ≠ "" then node.name ++ "_quant" else ""
  let convIntegerNode : NodeProto :=
    ⟨"ConvInteger", convIntegerName, quantizedInputNames ++ zeroPointNames, [convIntegerOutput], node.attrs⟩
  let nodes := nodes ++ [convIntegerNode]
  let castOpOutput := convIntegerOutput ++ "_cast_output"
  let castNode : NodeProto :=
    ⟨"Cast", convIntegerOutput ++ "_cast", [convIntegerOutput], [castOpOutput], []⟩
  let nodes := nodes ++ [castNode]
  if scaleNames.length ≠ 2 then (q1, some QuantError.assertFailed) else
  let scalesMulOp :=
    if convIntegerName ≠ "" then convIntegerName ++ "_scales_mul"
    else scaleNames.getD 0 "" ++ "_" ++ scaleNames.getD 1 "" ++ "_mul"
  let found := findByName scalesMulOp q1.new_nodes
  let scalesMulNode :=
    match found with
    | some nd => nd
    | none => getMulNode scaleNames (scalesMulOp ++ ":0") scalesMulOp
  let nodes := match found with
    | some _ => nodes
    | none => nodes ++ [scalesMulNode]
  let scalesMulOpOutput := scalesMulNode.outputs.getD 0 ""
  let hasBias := node.inputs.length = 3
  let scaledOutputName :=
    if hasBias then outputName node 0 ++ "quant_scaled_output" else outputName node 0
  let outputScaleMulOp := if convIntegerName ≠ "" then convIntegerName ++ "_output_scale_mul" else ""
  let nodes := nodes ++ [getMulNode [castOpOutput, scalesMulOpOutput] scaledOutputName outputScaleMulOp]
  if hasBias then
    match convIntegerAddBias q1 node nodes scaledOutputName with
    | Except.error e => (q1, some e)
    | Except.ok r2 => ({ r2.2 with new_nodes := r2.2.new_nodes ++ r2.1 }, none)
  else
    ({ q1 with new_nodes := q1.new_nodes ++ nodes }, none)

/-- The input-quantization step of QLinearConv.quantize from conv.py: when
the weight input is a known weight and per-channel mode is on, quantize the
data input via quantize_inputs on index 0 and the weight per-channel along
axis 0, appending the weight's (quantized name, zero-point, scale) to the
returned name lists; otherwise quantize both inputs via quantize_inputs on
indices 0 and 1. -/
def qlinearConvQuantizeWeights (q0 : Quantizer) (node : NodeProto) :
    (List String × List String × List String × List NodeProto) × Quantizer :=
  if isInputAWeight q0 (inputName node 1) && q0.per_channel then
    let r := quantizeInputsModelled q0 node [0]
    let w := quantizeWeightPerChannelModelled r.2 (inputName node 1) 0
    ((r.1.1 ++ [w.1.1], r.1.2.1 ++ [w.1.2.1], r.1.2.2.1 ++ [w.1.2.2], r.1.2.2.2), w.2)
  else
    quantizeInputsModelled q0 node [0, 1]

/-- The bias step of QLinearConv.quantize from conv.py: when the Conv node
has a third input, quantize it statically from the data and weight scales,
returning the quantized bias name; otherwise the empty name. -/
def qlinearConvQuantizeBias (q1 : Quantizer) (node : NodeProto) : String × Quantizer :=
  if node.inputs.length = 3 then
    quantizeBiasStaticModelled q1 (inputName node 2) (inputName node 0) (inputName node 1)
  else ("", q1)

/-- QLinearConv.quantize from conv.py: quantize the data input (and the
weight, per-channel along axis 0 when the weight is a known weight and
per-channel mode is on, else per-tensor via quantize_inputs), quantize the
bias when a third input exists, look up the output's recorded quantization
parameters (raising when absent), assemble the fused QLinearConv node with
inputs [quantized data, data scale, data zp, quantized weight, weight
scale, weight zp, output scale, output zp, optional quantized bias], record
the output's quantized-value entry and append the nodes. -/
def qlinearConvQuantize (q0 : Quantizer) (node : NodeProto) : Quantizer × Option QuantError :=
  if node.op_type ≠ "Conv" then (q0, some QuantError.assertFailed) else
  let branch := qlinearConvQuantizeWeights q0 node
  let quantizedInputNames := branch.1.1
  let zeroPointNames := branch.1.2.1
  let scaleNames := branch.1.2.2.1
  let nodes := branch.1.2.2.2
  let q1 := branch.2
  let biasPresent := node.inputs.length = 3
  let biasR := qlinearConvQuantizeBias q1 node
  let quantizedBiasName := biasR.1
  let q2 := biasR.2
  match getQuantizationParamsModelled q2 (outputName node 0) with
  | none => (q2, some (QuantError.missingQuantParams (outputName node 0) node.name))
  | some p =>
      let qlinearConvOutput := outputName node 0 ++ "_quantized"
      let qlinearConvName := if node.name ≠ "" then node.name ++ "_quant" else ""
      let qlinearConvInputs :=
        [quantizedInputNames.getD 0 "", scaleNames.getD 0 "", zeroPointNames.getD 0 "",
         quantizedInputNames.getD 1 "", scaleNames.getD 1 "", zeroPointNames.getD 1 "",
         p.scale_name, p.zp_name] ++ (if biasPresent then [quantizedBiasName] else [])
      let qlinearConvNode : NodeProto :=
        ⟨"QLinearConv", qlinearConvName, qlinearConvInputs, [qlinearConvOutput], node.attrs⟩
      let nodes := nodes ++ [qlinearConvNode]
      let q3 := { q2 with
        quantized_value_map :=
          (outputName node 0,
            ⟨outputName node 0, qlinearConvOutput, p.scale_name, p.zp_name, 1, 0⟩) ::
            q2.quantized_value_map,
        new_nodes := q2.new_nodes ++ nodes }
      (q3, none)

/-- The QDQ quantizer state, restricted to what QDQConv touches: graph
initializers, the per-channel flag, the tensors marked for
quantize/dequantize insertion (name, scale/zero-point count, channel axis),
and the biases marked for quantization. Marking is memoized: a tensor
already marked is not marked again. -/
structure QDQQuantizer where
  inits : List (String × List Nat)
  per_channel : Bool
  tensors_to_quantize : List (String × Nat × Nat)
  bias_to_quantize : List (String × String × String)
deriving DecidableEq

/-- Modelled from the spec: QDQQuantizer.quantize_tensor (not under src/):
mark a tensor for a per-tensor quantize/dequantize marker pair (a single
scalar scale/zero-point pair), memoized so an already-marked tensor is not
duplicated. -/
def qdqQuantizeTensorModelled (q : QDQQuantizer) (t : String) : QDQQuantizer :=
  match lookupKey t q.tensors_to_quantize with
  | some _ => q
  | none => { q with tensors_to_quantize := q.tensors_to_quantize ++ [(t, 1, 0)] }

/-- Modelled from the spec: QDQQuantizer.quantize_tensor_per_channel (not
under src/): mark a tensor for a per-channel marker pair along the given
axis, with one scale and one zero-point per output channel (the
initializer's dimension at that axis); memoized like quantize_tensor. -/
def qdqQuantizeTensorPerChannelModelled (q : QDQQuantizer) (t : String) (axis : Nat) : QDQQuantizer :=
  match lookupKey t q.tensors_to_quantize with
  | some _ => q
  | none =>
      let channels := match lookupKey t q.inits with
        | some dims => dims.getD axis 1
        | none => 1
      { q with tensors_to_quantize := q.tensors_to_quantize ++ [(t, channels, axis)] }

/-- Modelled from the spec: QDQQuantizer.quantize_bias_tensor (not under
src/): record the bias (with its data and weight tensor names, whose scales
derive its scale) for later quantization. -/
def qdqQuantizeBiasTensorModelled (q : QDQQuantizer) (bias inputTensorName weightName : String) :
    QDQQuantizer :=
  { q with bias_to_quantize := q.bias_to_quantize ++ [(bias, inputTensorName, weightName)] }

/-- QDQConv.quantize from conv.py: mark the data input, mark the weight
per-channel along axis 0 when per-channel mode is on (else per-tensor), and
mark the bias when a third input exists. -/
def qdqConvQuantize (q0 : QDQQuantizer) (node : NodeProto) : QDQQuantizer × Option QuantError :=
  if node.op_type ≠ "Conv" then (q0, some QuantError.assertFailed) else
  let q1 := qdqQuantizeTensorModelled q0 (inputName node 0)
  let q2 :=
    if q1.per_channel then qdqQuantizeTensorPerChannelModelled q1 (inputName node 1) 0
    else qdqQuantizeTensorModelled q1 (inputName node 1)
  let q3 :=
    if node.inputs.length = 3 then
      qdqQuantizeBiasTensorModelled q2 (inputName node 2) (inputName node 0) (inputName node 1)
    else q2
  (q3, none)

end OnnxQuant

namespace Gpt2

open OnnxQuant

/-- torch masked_fill_ with a per-row broadcast mask (mask.unsqueeze(-1)):
when the mask bit is set every entry of the row is replaced by the value,
otherwise the row is unchanged. -/
def maskedFillRow (m : Bool) (v : α) (xs : List α) : List α :=
  if m then xs.map (fun _ => v) else xs

/-- torch masked_fill_ applied to column 0 only (the [..., 0] slice): when
the mask bit is set the first entry is replaced by the value. -/
def fillHead (m : Bool) (v : α) : List α → List α
  | [] => []
  | x :: xs => (if m then v else x) :: xs

/-- One (batch, beam) cell of the beam-search step state: the beam's
candidate next-token log-probabilities (bottom = negative infinity) and
candidate next-token ids, both indexed by candidate column. -/
structure BeamCell where
  log_probs : List (WithBot ℚ)
  token_ids : List ℤ
deriving DecidableEq

/-- The finished-beam masking block of
MyGPT2LMHeadModel_BeamSearchStep.forward (gpt2_helper.py): with
finished = not unfinished, fill the whole candidate log-probability row
with negative infinity, then set its column 0 to 0, and fill the whole
candidate token-id row with the end-of-sequence id. -/
def beamMaskStep (eos : ℤ) (unfinished : Bool) (c : BeamCell) : BeamCell :=
  let finished := !unfinished
  let lp := maskedFillRow finished (⊥ : WithBot ℚ) c.log_probs
  let lp2 := fillHead finished (0 : WithBot ℚ) lp
  let ids := maskedFillRow finished eos c.token_ids
  ⟨lp2, ids⟩

/-- The masking block applied across all (batch, beam) cells, pairing each
cell with its unfinished-mask entry. -/
def beamMaskAll (eos : ℤ) (mask : List Bool) (cells : List BeamCell) : List BeamCell :=
  List.zipWith (beamMaskStep eos) mask cells

/-- What one decode step of Gpt2Tester.test_generation observes for its
stop test: the entries of the IO-binding runner's updated unfinished-mask
(flattened) and the torch runner's top-1 tokens (one per batch element). -/
structure StepOut where
  unfinished : List Bool
  top1 : List ℤ
deriving DecidableEq

/-- The done-condition computed at the end of one loop body in
test_generation: in beam mode, `not input_unfinished_sents.all()`; else
`(top_1_tokens == eos_token_id).any()`. Both are scalars that are then
or-broadcast into the per-batch done tensor. -/
def stopCond (useBeam : Bool) (eos : ℤ) (out : StepOut) : Bool :=
  if useBeam then !(out.unfinished.all (fun b => b)) else out.top1.any (fun t => t = eos)

/-- done = done | cond with a scalar cond: every entry is or-ed with it. -/
def doneUpdate (cond : Bool) (done : List Bool) : List Bool :=
  done.map (fun d => d || cond)

/-- The decode loop body iteration of test_generation starting at a given
step index with the given remaining fuel and done vector: each iteration
performs one step advance, updates done, and breaks when all of done is
true. Returns the number of step advances executed. -/
def runFrom (useBeam : Bool) (eos : ℤ) (outs : ℕ → StepOut) (step : ℕ) :
    ℕ → List Bool → ℕ
  | 0, _ => 0
  | fuel + 1, done =>
      let d2 := doneUpdate (stopCond useBeam eos (outs step)) done
      if d2.all (fun b => b) then 1 else 1 + runFrom useBeam eos outs (step + 1) fuel d2

/-- The decode loop of Gpt2Tester.test_generation for one test input:
done starts as torch.zeros(batch_size, bool) and the loop runs
`for step in range(max_steps)` with the break test above. Returns the
number of step advances executed. -/
def decodeStepsRun (useBeam : Bool) (eos : ℤ) (outs : ℕ → StepOut)
    (batch maxSteps : ℕ) : ℕ :=
  runFrom useBeam eos outs 0 maxSteps (List.replicate batch false)

/-- One element of the buffer update in Gpt2Helper.auto_increase_buffer_size:
the buffer for a key is replaced by a fresh buffer of exactly the required
element count when that count strictly exceeds the current capacity. -/
def updateBuffer (bufs : List (String × ℕ)) (key : String) (required : ℕ) :
    List (String × ℕ) :=
  bufs.map (fun p => if p.1 = key then (p.1, if p.2 < required then required else p.2) else p)

/-- Gpt2Helper.auto_increase_buffer_size: for every key of the requested
output shapes, assert the key has a buffer (modelled as failure with none),
and grow that buffer to the shape's element count when the count strictly
exceeds the current capacity. Buffers are modelled by their element count
(torch.empty(n).nelement() = n). -/
def autoIncreaseBufferSize (bufs : List (String × ℕ)) :
    List (String × List ℕ) → Option (List (String × ℕ))
  | [] => some bufs
  | (key, shape) :: rest =>
      if (lookupKey key bufs).isSome then
        autoIncreaseBufferSize (updateBuffer bufs key shape.prod) rest
      else none

/-- Gpt2Metric from gpt2_tester.py, restricted to the scalar accumulators
(the per-batch error tensors are omitted): names, top_k, error counters,
sample counter, tokenize latency and the per-cache-length-bucket latency
map (bucket key to its samples in arrival order). -/
structure Gpt2Metric where
  baseline : String
  treatment : String
  top_k : ℤ
  top_1_error : ℕ
  top_k_error : ℕ
  total_samples : ℕ
  tokenize_latency : ℚ
  seq_len_latency : List (ℕ × List ℚ)
deriving DecidableEq

/-- Gpt2Metric.__init__: `assert top_k > 1 and top_k <= 100`, then the
counters start at zero and the latency map empty. The failing assertion is
modelled as returning none. -/
def mkGpt2Metric (treatment_name baseline_name : String) (top_k : ℤ)
    (tokenize_latency : ℚ) : Option Gpt2Metric :=
  if 1 < top_k ∧ top_k ≤ 100 then
    some ⟨baseline_name, treatment_name, top_k, 0, 0, 0, tokenize_latency, []⟩
  else none

/-- Python `if key not in dict: dict[key] = []` then `dict[key].append(v)`
on an insertion-ordered association list. -/
def bucketAppend (key : ℕ) (v : ℚ) : List (ℕ × List ℚ) → List (ℕ × List ℚ)
  | [] => [(key, [v])]
  | (k, vs) :: rest =>
      if k = key then (k, vs ++ [v]) :: rest else (k, vs) :: bucketAppend key v rest

/-- The bucket key of Gpt2Metric.add_latency:
`int(math.log2(past_seq_len)) + 1 if past_seq_len > 0 else 0`, with the
integer floor of log2 embedded as Nat.log2. -/
def latencyBucket (past_seq_len : ℕ) : ℕ :=
  if 0 < past_seq_len then Nat.log2 past_seq_len + 1 else 0

/-- Gpt2Metric.add_latency: append the latency sample to the bucket keyed
by latencyBucket of the past sequence length. -/
def addLatency (m : Gpt2Metric) (past_seq_len : ℕ) (latency : ℚ) : Gpt2Metric :=
  { m with seq_len_latency := bucketAppend (latencyBucket past_seq_len) latency m.seq_len_latency }

/-- Gpt2Metric.start_batch restricted to the embedded fields: the sample
counter grows by the batch size (the fresh per-batch error tensors are not
modelled). -/
def startBatch (m : Gpt2Metric) (batch_size : ℕ) : Gpt2Metric :=
  { m with total_samples := m.total_samples + batch_size }

/-- A concrete step-outcome stream for beam mode: at every step one beam is
finished ([false, true]) and no top-1 token is produced. -/
def exBeamOuts : ℕ → StepOut := fun _ => ⟨[false, true], []⟩

/-- A concrete step-outcome stream for greedy mode: all beams unfinished,
and the single batch element emits token 3 at step 0 and token 9 (the
end-of-sequence id in the instantiation) from step 1 on. -/
def exStopOuts : ℕ → StepOut := fun n => ⟨[true], if n = 0 then [3] else [9]⟩

/-- A concrete metric value equal to mkGpt2Metric "Onnx" "Torch" 20 0. -/
def exMetric : Gpt2Metric := ⟨"Torch", "Onnx", 20, 0, 0, 0, 0, []⟩

end Gpt2

namespace OnnxQuant

/-- A concrete quantizer with nothing recorded. -/
def exQuantizer : Quantizer := ⟨[], false, [], [], [], []⟩

/-- A concrete Conv node without bias whose weight W is not an initializer
of exQuantizer. -/
def exConvNoBias : NodeProto := ⟨"Conv", "c", ["X", "W"], ["Y"], []⟩

/-- A concrete Conv node with a bias input. -/
def exConvBias : NodeProto := ⟨"Conv", "c", ["X", "W", "Bc"], ["Y"], []⟩

/-- Two unnamed Conv nodes sharing the same data and weight inputs. -/
def exConvU1 : NodeProto := ⟨"Conv", "", ["A", "B"], ["Y1"], []⟩

/-- Second unnamed Conv node sharing the inputs of exConvU1. -/
def exConvU2 : NodeProto := ⟨"Conv", "", ["A", "B"], ["Y2"], []⟩

/-- Two named Conv nodes sharing the same data and weight inputs. -/
def exConvN1 : NodeProto := ⟨"Conv", "c1", ["A", "B"], ["Y1"], []⟩

/-- Second named Conv node sharing the inputs of exConvN1. -/
def exConvN2 : NodeProto := ⟨"Conv", "c2", ["A", "B"], ["Y2"], []⟩

/-- A concrete quantizer with weight W an initializer of dims [8,3,3,3],
per-channel mode on, and recorded quantization parameters for Y. -/
def exQuantizerPC : Quantizer :=
  ⟨[("W", [8, 3, 3, 3])], true, [("Y", ⟨"Y_sc", "Y_zp"⟩)], [], [], []⟩

/-- Like exQuantizerPC but with per-channel mode off. -/
def exQuantizerPT : Quantizer :=
  ⟨[("W", [8, 3, 3, 3])], false, [("Y", ⟨"Y_sc", "Y_zp"⟩)], [], [], []⟩

/-- A concrete QDQ quantizer with weight W an initializer of dims
[8,3,3,3] and per-channel mode on. -/
def exQDQPC : QDQQuantizer := ⟨[("W", [8, 3, 3, 3])], true, [], []⟩

/-- Like exQDQPC but with per-channel mode off. -/
def exQDQPT : QDQQuantizer := ⟨[("W", [8, 3, 3, 3])], false, [], []⟩

end OnnxQuant

namespace OnnxQuant

@[simp] theorem lookupKey_nil {κ : Type} [DecidableEq κ] (k : κ) :
    lookupKey k ([] : List (κ × α)) = none := rfl

@[simp] theorem lookupKey_cons {κ : Type} [DecidableEq κ] (k k2 : κ) (v : α)
    (rest : List (κ × α)) :
    lookupKey k ((k2, v) :: rest) = if k2 = k then some v else lookupKey k rest := rfl

theorem lookupKey_append {κ : Type} [DecidableEq κ] (k : κ) (l1 l2 : List (κ × α)) :
    lookupKey k (l1 ++ l2) =
      match lookupKey k l1 with
      | some v => some v
      | none => lookupKey k l2 := by
  induction l1 with
  | nil => simp
  | cons hd tl ih =>
      obtain ⟨k2, v⟩ := hd
      by_cases h : k2 = k <;> simp [h, ih]

end OnnxQuant

namespace Gpt2

theorem lookupKey_bucketAppend_self (key : ℕ) (v : ℚ) (l : List (ℕ × List ℚ)) :
    OnnxQuant.lookupKey key (bucketAppend key v l) =
      some ((OnnxQuant.lookupKey key l).getD [] ++ [v]) := by
  induction l with
  | nil => simp [bucketAppend]
  | cons hd tl ih =>
      obtain ⟨k, vs⟩ := hd
      by_cases h : k = key
      · subst h; simp [bucketAppend]
      · simp [bucketAppend, h, ih]

theorem lookupKey_bucketAppend_ne (key k' : ℕ) (v : ℚ) (l : List (ℕ × List ℚ))
    (h : k' ≠ key) :
    OnnxQuant.lookupKey k' (bucketAppend key v l) = OnnxQuant.lookupKey k' l := by
  induction l with
  | nil => simp [bucketAppend, Ne.symm h]
  | cons hd tl ih =>
      obtain ⟨k, vs⟩ := hd
      by_cases h2 : k = key
      · subst h2; simp [bucketAppend, Ne.symm h]
      · by_cases h3 : k = k' <;> simp [bucketAppend, h2, h3, h, ih]

end Gpt2

namespace OnnxQuant

@[simp] theorem quantizeTensorModelled_qparams (q : Quantizer) (t : String) :
    (quantizeTensorModelled q t).2.2.qparams = q.qparams := by
  cases h : lookupKey t q.quantized_value_map <;> simp [quantizeTensorModelled, h]

@[simp] theorem quantizeTensorModelled_new_nodes (q : Quantizer) (t : String) :
    (quantizeTensorModelled q t).2.2.new_nodes = q.new_nodes := by
  cases h : lookupKey t q.quantized_value_map <;> simp [quantizeTensorModelled, h]

@[simp] theorem quantizeTensorModelled_inits (q : Quantizer) (t : String) :
    (quantizeTensorModelled q t).2.2.inits = q.inits := by
  cases h : lookupKey t q.quantized_value_map <;> simp [quantizeTensorModelled, h]

@[simp] theorem quantizeTensorModelled_new_inits (q : Quantizer) (t : String) :
    (quantizeTensorModelled q t).2.2.new_inits = q.new_inits := by
  cases h : lookupKey t q.quantized_value_map <;> simp [quantizeTensorModelled, h]

@[simp] theorem quantizeInputsModelled_qparams (node : NodeProto) :
    ∀ (idxs : List ℕ) (q : Quantizer),
      (quantizeInputsModelled q node idxs).2.qparams = q.qparams := by
  intro idxs
  induction idxs with
  | nil => intro q; rfl
  | cons i rest ih => intro q; simp [quantizeInputsModelled, ih]

@[simp] theorem quantizeInputsModelled_new_nodes (node : NodeProto) :
    ∀ (idxs : List ℕ) (q : Quantizer),
      (quantizeInputsModelled q node idxs).2.new_nodes = q.new_nodes := by
  intro idxs
  induction idxs with
  | nil => intro q; rfl
  | cons i rest ih => intro q; simp [quantizeInputsModelled, ih]

@[simp] theorem quantizeInputsModelled_inits (node : NodeProto) :
    ∀ (idxs : List ℕ) (q : Quantizer),
      (quantizeInputsModelled q node idxs).2.inits = q.inits := by
  intro idxs
  induction idxs with
  | nil => intro q; rfl
  | cons i rest ih => intro q; simp [quantizeInputsModelled, ih]

@[simp] theorem quantizeInputsModelled_new_inits (node : NodeProto) :
    ∀ (idxs : List ℕ) (q : Quantizer),
      (quantizeInputsModelled q node idxs).2.new_inits = q.new_inits := by
  intro idxs
  induction idxs with
  | nil => intro q; rfl
  | cons i rest ih => intro q; simp [quantizeInputsModelled, ih]

@[simp] theorem quantizeWeightPerChannelModelled_qparams (q : Quantizer) (w : String)
    (axis : ℕ) : (quantizeWeightPerChannelModelled q w axis).2.qparams = q.qparams := by
  cases h : lookupKey w q.quantized_value_map <;> simp [quantizeWeightPerChannelModelled, h]

@[simp] theorem quantizeWeightPerChannelModelled_new_nodes (q : Quantizer) (w : String)
    (axis : ℕ) : (quantizeWeightPerChannelModelled q w axis).2.new_nodes = q.new_nodes := by
  cases h : lookupKey w q.quantized_value_map <;> simp [quantizeWeightPerChannelModelled, h]

@[simp] theorem quantizeBiasStaticModelled_qparams (q : Quantizer) (b i w : String) :
    (quantizeBiasStaticModelled q b i w).2.qparams = q.qparams := by
  cases h : lookupKey b q.quantized_value_map <;> simp [quantizeBiasStaticModelled, h]

@[simp] theorem quantizeBiasStaticModelled_new_nodes (q : Quantizer) (b i w : String) :
    (quantizeBiasStaticModelled q b i w).2.new_nodes = q.new_nodes := by
  cases h : lookupKey b q.quantized_value_map <;> simp [quantizeBiasStaticModelled, h]

theorem findByName_append (nm : String) (l1 l2 : List NodeProto) :
    findByName nm (l1 ++ l2) =
      match findByName nm l1 with
      | some nd => some nd
      | none => findByName nm l2 := by
  induction l1 with
  | nil => simp [findByName]
  | cons nd rest ih =>
      by_cases h : nd.name = nm <;> simp [findByName, h, ih]

theorem findByName_none_filter (nm : String) (l : List NodeProto)
    (h : findByName nm l = none) :
    l.filter (fun nd => decide (nd.name = nm)) = [] := by
  induction l with
  | nil => rfl
  | cons nd rest ih =>
      by_cases hn : nd.name = nm
      · rw [findByName, if_pos hn] at h; cases h
      · rw [findByName, if_neg hn] at h
        simp [hn, ih h]

theorem quantizeInputsModelled_scale_length (node : NodeProto) :
    ∀ (idxs : List ℕ) (q : Quantizer),
      (quantizeInputsModelled q node idxs).1.2.2.1.length = idxs.length := by
  intro idxs
  induction idxs with
  | nil => intro q; rfl
  | cons i rest ih => intro q; simp [quantizeInputsModelled, ih]

theorem convIntegerAddBias_err (q : Quantizer) (node : NodeProto) (nodes : List NodeProto)
    (so : String) (hw : lookupKey (inputName node 1) q.inits = none) :
    convIntegerAddBias q node nodes so =
      Except.error (QuantError.expectedInitializer (inputName node 1)) := by
  simp only [convIntegerAddBias, hw]

@[simp] theorem qlinearConvQuantizeWeights_qparams (q0 : Quantizer) (node : NodeProto) :
    (qlinearConvQuantizeWeights q0 node).2.qparams = q0.qparams := by
  unfold qlinearConvQuantizeWeights
  split <;> simp

@[simp] theorem qlinearConvQuantizeWeights_new_nodes (q0 : Quantizer) (node : NodeProto) :
    (qlinearConvQuantizeWeights q0 node).2.new_nodes = q0.new_nodes := by
  unfold qlinearConvQuantizeWeights
  split <;> simp

@[simp] theorem qlinearConvQuantizeBias_qparams (q1 : Quantizer) (node : NodeProto) :
    (qlinearConvQuantizeBias q1 node).2.qparams = q1.qparams := by
  unfold qlinearConvQuantizeBias
  split <;> simp

@[simp] theorem qlinearConvQuantizeBias_new_nodes (q1 : Quantizer) (node : NodeProto) :
    (qlinearConvQuantizeBias q1 node).2.new_nodes = q1.new_nodes := by
  unfold qlinearConvQuantizeBias
  split <;> simp

end OnnxQuant

namespace Gpt2

theorem getD_zipWith {α β γ : Type} (f : α → β → γ) (l1 : List α) (l2 : List β)
    (i : ℕ) (h1 : i < l1.length) (h2 : i < l2.length) (da : α) (db : β) (dc : γ) :
    (List.zipWith f l1 l2).getD i dc = f (l1.getD i da) (l2.getD i db) := by
  induction l1 generalizing l2 i with
  | nil => simp at h1
  | cons a t ih =>
      cases l2 with
      | nil => simp at h2
      | cons b t2 =>
          cases i with
          | zero => simp
          | succ n => simpa using ih t2 n (by simpa using h1) (by simpa using h2)

theorem getD_map_const {α β : Type} (v : β) (l : List α) (j : ℕ) (hj : j < l.length)
    (d : β) : (l.map (fun _ => v)).getD j d = v := by
  induction l generalizing j with
  | nil => simp at hj
  | cons a t ih =>
      cases j with
      | zero => simp
      | succ n => simpa using ih n (by simpa using hj)

theorem beamMaskStep_finished_ids (eos : ℤ) (c : BeamCell) (j : ℕ)
    (hj : j < c.token_ids.length) :
    ((beamMaskStep eos false c).token_ids).getD j 0 = eos := by
  simpa [beamMaskStep, maskedFillRow] using getD_map_const eos c.token_ids j hj 0

theorem beamMaskStep_finished_lp (eos : ℤ) (c : BeamCell) (j : ℕ)
    (hj : j < c.log_probs.length) :
    ((beamMaskStep eos false c).log_probs).getD j 0 =
      if j = 0 then (0 : WithBot ℚ) else ⊥ := by
  rcases hl : c.log_probs with _ | ⟨x, xs⟩
  · rw [hl] at hj; simp at hj
  · cases j with
    | zero => simp [beamMaskStep, maskedFillRow, fillHead, hl]
    | succ n =>
        have hn : n < xs.length := by
          rw [hl] at hj; simpa using hj
        simp [beamMaskStep, maskedFillRow, fillHead, hl, List.getElem?_replicate, hn]

end Gpt2

/-- C2: in the beam-search step masking, every beam whose unfinished-mask
entry is false has all its candidate next-token ids set to the
end-of-sequence id, and its candidate log-probabilities set to negative
infinity (bottom) at every column except column 0, which is set to 0. -/
theorem beam_search_finished_mask (eos : ℤ) (mask : List Bool)
    (cells : List Gpt2.BeamCell) (b : ℕ) (hb1 : b < mask.length)
    (hb2 : b < cells.length) (hm : mask.getD b true = false) (j : ℕ) :
    (j < (cells.getD b ⟨[], []⟩).token_ids.length →
      ((Gpt2.beamMaskAll eos mask cells).getD b ⟨[], []⟩).token_ids.getD j 0 = eos) ∧
    (j < (cells.getD b ⟨[], []⟩).log_probs.length →
      ((Gpt2.beamMaskAll eos mask cells).getD b ⟨[], []⟩).log_probs.getD j 0 =
        if j = 0 then (0 : WithBot ℚ) else ⊥) := by
  have hz : (Gpt2.beamMaskAll eos mask cells).getD b ⟨[], []⟩ =
      Gpt2.beamMaskStep eos (mask.getD b true) (cells.getD b ⟨[], []⟩) := by
    unfold Gpt2.beamMaskAll
    exact Gpt2.getD_zipWith (Gpt2.beamMaskStep eos) mask cells b hb1 hb2 true ⟨[], []⟩ ⟨[], []⟩
  rw [hz, hm]
  exact ⟨fun hj => Gpt2.beamMaskStep_finished_ids eos _ j hj,
    fun hj => Gpt2.beamMaskStep_finished_lp eos _ j hj⟩

/-- Witness for C2 on one finished beam with two candidates: both token ids
become the eos id 7, column 0 keeps mass 0 and column 1 is bottom. -/
theorem beam_search_finished_mask_witness :
    ((Gpt2.beamMaskAll 7 [false] [⟨[(1 : WithBot ℚ), (2 : WithBot ℚ)], [5, 6]⟩]).getD 0
      ⟨[], []⟩).token_ids.getD 1 0 = 7 ∧
    ((Gpt2.beamMaskAll 7 [false] [⟨[(1 : WithBot ℚ), (2 : WithBot ℚ)], [5, 6]⟩]).getD 0
      ⟨[], []⟩).log_probs.getD 0 0 = 0 ∧
    ((Gpt2.beamMaskAll 7 [false] [⟨[(1 : WithBot ℚ), (2 : WithBot ℚ)], [5, 6]⟩]).getD 0
      ⟨[], []⟩).log_probs.getD 1 0 = ⊥ := by
  have h1 := beam_search_finished_mask 7 [false] [⟨[(1 : WithBot ℚ), (2 : WithBot ℚ)], [5, 6]⟩]
    0 (by decide) (by decide) (by decide) 1
  have h0 := beam_search_finished_mask 7 [false] [⟨[(1 : WithBot ℚ), (2 : WithBot ℚ)], [5, 6]⟩]
    0 (by decide) (by decide) (by decide) 0
  refine ⟨h1.1 (by decide), ?_, ?_⟩
  · simpa using h0.2 (by decide)
  · simpa using h1.2 (by decide)

namespace Gpt2

theorem all_id_replicate (n : ℕ) (b : Bool) :
    (List.replicate n b).all (fun x => x) = (decide (n = 0) || b) := by
  induction n with
  | zero => simp
  | succ m ih => cases b <;> simp [List.replicate_succ, ih]

theorem doneUpdate_replicate (c : Bool) (n : ℕ) (b : Bool) :
    doneUpdate c (List.replicate n b) = List.replicate n (b || c) := by
  simp [doneUpdate, List.map_replicate]

theorem runFrom_le_fuel (useBeam : Bool) (eos : ℤ) (outs : ℕ → StepOut) :
    ∀ fuel step done, runFrom useBeam eos outs step fuel done ≤ fuel := by
  intro fuel
  induction fuel with
  | zero => intro step done; simp [runFrom]
  | succ f ih =>
      intro step done
      by_cases hc :
        (doneUpdate (stopCond useBeam eos (outs step)) done).all (fun b => b) = true
      · simp [runFrom, hc]
      · have hc2 :
            (doneUpdate (stopCond useBeam eos (outs step)) done).all (fun b => b) = false := by
          simpa using hc
        have h2 := ih (step + 1) (doneUpdate (stopCond useBeam eos (outs step)) done)
        simp [runFrom, hc2]
        omega

theorem runFrom_first_stop (useBeam : Bool) (eos : ℤ) (outs : ℕ → StepOut) (batch : ℕ)
    (hb : 0 < batch) :
    ∀ k step fuel, (∀ j, j < k → stopCond useBeam eos (outs (step + j)) = false) →
      stopCond useBeam eos (outs (step + k)) = true →
      runFrom useBeam eos outs step fuel (List.replicate batch false) = min fuel (k + 1) := by
  intro k
  induction k with
  | zero =>
      intro step fuel hfirst hstop
      cases fuel with
      | zero => simp [runFrom]
      | succ f =>
          have hs : stopCond useBeam eos (outs step) = true := by simpa using hstop
          have hupd : doneUpdate (stopCond useBeam eos (outs step))
              (List.replicate batch false) = List.replicate batch true := by
            rw [doneUpdate_replicate, hs]; simp
          have hall : (List.replicate batch true).all (fun x => x) = true := by
            rw [all_id_replicate]; simp
          have hmin : min (f + 1) 1 = 1 := by omega
          simp [runFrom, hupd, hall, hmin]
  | succ kk ih =>
      intro step fuel hfirst hstop
      cases fuel with
      | zero => simp [runFrom]
      | succ f =>
          have h0 : stopCond useBeam eos (outs step) = false := by
            simpa using hfirst 0 (by omega)
          have hupd : doneUpdate (stopCond useBeam eos (outs step))
              (List.replicate batch false) = List.replicate batch false := by
            rw [doneUpdate_replicate, h0]; simp
          have hall : (List.replicate batch false).all (fun x => x) = false := by
            rw [all_id_replicate]
            simp [Nat.pos_iff_ne_zero.mp hb]
          have hrec := ih (step + 1) f
            (fun j hj => by
              rw [show step + 1 + j = step + (j + 1) from by omega]
              exact hfirst (j + 1) (by omega))
            (by rw [show step + 1 + kk = step + (kk + 1) from by omega]; exact hstop)
          simp [runFrom, hupd, hall, hrec]
          omega

theorem lookupKey_updateBuffer (k key : String) (req : ℕ) (bufs : List (String × ℕ)) :
    OnnxQuant.lookupKey k (updateBuffer bufs key req) =
      (OnnxQuant.lookupKey k bufs).map
        (fun v => if key = k then (if v < req then req else v) else v) := by
  induction bufs with
  | nil => simp [updateBuffer]
  | cons hd tl ih =>
      obtain ⟨a, bv⟩ := hd
      have hcons : updateBuffer ((a, bv) :: tl) key req =
          (if a = key then (a, if bv < req then req else bv) else (a, bv)) ::
            updateBuffer tl key req := rfl
      rw [hcons]
      by_cases hk : a = k
      · subst hk
        by_cases hak : a = key
        · subst hak; simp
        · simp [hak, Ne.symm hak]
      · by_cases hak : a = key
        · subst hak; simp [hk, ih]
        · simp [hak, hk, ih]

theorem le_bufferGrow (v req : ℕ) (c : Prop) [Decidable c] :
    v ≤ (if c then (if v < req then req else v) else v) := by
  split_ifs <;> omega

theorem autoIncrease_monotone :
    ∀ (shapes : List (String × List ℕ)) (bufs bufs' : List (String × ℕ)),
      autoIncreaseBufferSize bufs shapes = some bufs' →
      ∀ k v, OnnxQuant.lookupKey k bufs = some v →
        ∃ v', OnnxQuant.lookupKey k bufs' = some v' ∧ v ≤ v' := by
  intro shapes
  induction shapes with
  | nil =>
      intro bufs bufs' h k v hv
      simp [autoIncreaseBufferSize] at h
      subst h
      exact ⟨v, hv, le_refl v⟩
  | cons hd tl ih =>
      obtain ⟨key, shape⟩ := hd
      intro bufs bufs' h k v hv
      by_cases hg : (OnnxQuant.lookupKey key bufs).isSome
      · rw [autoIncreaseBufferSize, if_pos hg] at h
        have hv1 : OnnxQuant.lookupKey k (updateBuffer bufs key shape.prod) =
            some (if key = k then (if v < shape.prod then shape.prod else v) else v) := by
          rw [lookupKey_updateBuffer, hv]; rfl
        obtain ⟨v', hv', hle⟩ := ih (updateBuffer bufs key shape.prod) bufs' h k _ hv1
        exact ⟨v', hv', le_trans (le_bufferGrow v shape.prod _) hle⟩
      · rw [autoIncreaseBufferSize, if_neg hg] at h
        cases h

theorem autoIncrease_coverage :
    ∀ (shapes : List (String × List ℕ)) (bufs bufs' : List (String × ℕ)),
      autoIncreaseBufferSize bufs shapes = some bufs' →
      ∀ p, p ∈ shapes →
        ∃ v', OnnxQuant.lookupKey p.1 bufs' = some v' ∧ p.2.prod ≤ v' := by
  intro shapes
  induction shapes with
  | nil => intro bufs bufs' h p hp; simp at hp
  | cons hd tl ih =>
      obtain ⟨key, shape⟩ := hd
      intro bufs bufs' h p hp
      by_cases hg : (OnnxQuant.lookupKey key bufs).isSome
      · rw [autoIncreaseBufferSize, if_pos hg] at h
        rcases List.mem_cons.mp hp with hph | hpt
        · obtain ⟨hp1, hp2⟩ : p.1 = key ∧ p.2 = shape := by rw [hph]; exact ⟨rfl, rfl⟩
          rw [hp1, hp2]
          obtain ⟨v0, hv0⟩ := Option.isSome_iff_exists.mp hg
          have hv1 : OnnxQuant.lookupKey key (updateBuffer bufs key shape.prod) =
              some (if v0 < shape.prod then shape.prod else v0) := by
            rw [lookupKey_updateBuffer, hv0]; simp
          obtain ⟨v', hv', hle⟩ := autoIncrease_monotone tl _ bufs' h key _ hv1
          refine ⟨v', hv', le_trans ?_ hle⟩
          split_ifs <;> omega
        · exact ih (updateBuffer bufs key shape.prod) bufs' h p hpt
      · rw [autoIncreaseBufferSize, if_neg hg] at h
        cases h

theorem autoIncrease_strict :
    ∀ (shapes : List (String × List ℕ)) (bufs bufs' : List (String × ℕ)),
      autoIncreaseBufferSize bufs shapes = some bufs' →
      ∀ k v v', OnnxQuant.lookupKey k bufs = some v →
        OnnxQuant.lookupKey k bufs' = some v' → v ≠ v' →
        ∃ p, p ∈ shapes ∧ p.1 = k ∧ v < p.2.prod := by
  intro shapes
  induction shapes with
  | nil =>
      intro bufs bufs' h k v v' hv hv' hne
      simp [autoIncreaseBufferSize] at h
      subst h
      rw [hv] at hv'
      exact absurd (Option.some.inj hv') hne
  | cons hd tl ih =>
      obtain ⟨key, shape⟩ := hd
      intro bufs bufs' h k v v' hv hv' hne
      by_cases hg : (OnnxQuant.lookupKey key bufs).isSome
      · rw [autoIncreaseBufferSize, if_pos hg] at h
        have hv1 : OnnxQuant.lookupKey k (updateBuffer bufs key shape.prod) =
            some (if key = k then (if v < shape.prod then shape.prod else v) else v) := by
          rw [lookupKey_updateBuffer, hv]; rfl
        by_cases hkk : key = k
        · subst hkk
          by_cases hlt : v < shape.prod
          · exact ⟨(key, shape), List.mem_cons_self _ _, rfl, hlt⟩
          · rw [if_pos rfl, if_neg hlt] at hv1
            obtain ⟨p, hp, hpk, hplt⟩ := ih _ bufs' h key v v' hv1 hv' hne
            exact ⟨p, List.mem_cons_of_mem _ hp, hpk, hplt⟩
        · rw [if_neg hkk] at hv1
          obtain ⟨p, hp, hpk, hplt⟩ := ih _ bufs' h k v v' hv1 hv' hne
          exact ⟨p, List.mem_cons_of_mem _ hp, hpk, hplt⟩
      · rw [autoIncreaseBufferSize, if_neg hg] at h
        cases h

end Gpt2

/-- C4 (amended): the decode loop of test_generation executes at most
max_steps step advances, and (for a nonempty batch) it stops right after
the first step whose done-condition holds, where the done-condition is: in
beam mode, some unfinished-mask entry is false; otherwise, some batch
element's top-1 token equals the end-of-sequence id — whichever of that
step or the step bound comes first. -/
theorem decode_loop_steps (useBeam : Bool) (eos : ℤ) (outs : ℕ → Gpt2.StepOut)
    (batch maxSteps k : ℕ) :
    Gpt2.decodeStepsRun useBeam eos outs batch maxSteps ≤ maxSteps ∧
    (0 < batch → (∀ j, j < k → Gpt2.stopCond useBeam eos (outs j) = false) →
      Gpt2.stopCond useBeam eos (outs k) = true →
      Gpt2.decodeStepsRun useBeam eos outs batch maxSteps = min maxSteps (k + 1)) := by
  constructor
  · exact Gpt2.runFrom_le_fuel useBeam eos outs maxSteps 0 _
  · intro hb hfirst hstop
    exact Gpt2.runFrom_first_stop useBeam eos outs batch hb k 0 maxSteps
      (fun j hj => by simpa using hfirst j hj) (by simpa using hstop)

/-- Witness for C4's amended statement in greedy mode: with the
end-of-sequence id 9 produced first at step 1 and max_steps = 5, exactly
min 5 2 = 2 step advances run. -/
theorem decode_loop_steps_witness :
    Gpt2.decodeStepsRun false 9 Gpt2.exStopOuts 1 5 = min 5 2 := by
  refine (decode_loop_steps false 9 Gpt2.exStopOuts 1 5 1).2 (by decide) ?_ (by decide)
  intro j hj
  have hj0 : j = 0 := by omega
  subst hj0
  decide

/-- Counterexample to C4 as stated: in beam mode the loop breaks as soon as
any unfinished-mask entry is false, not when the mask is entirely false.
With the mask [false, true] at every step — never entirely false — and
max_steps = 3, the loop executes exactly 1 step advance instead of running
to the step bound. -/
theorem decode_loop_counterexample :
    Gpt2.decodeStepsRun true 9 Gpt2.exBeamOuts 1 3 = 1 ∧
    (Gpt2.exBeamOuts 0).unfinished = [false, true] ∧
    (Gpt2.exBeamOuts 1).unfinished = [false, true] ∧
    (Gpt2.exBeamOuts 2).unfinished = [false, true] := by
  exact ⟨by decide, rfl, rfl, rfl⟩

/-- C8: auto_increase_buffer_size never shrinks a buffer (every existing
buffer's capacity is at least its old capacity afterwards), gives every
requested output a buffer of capacity at least the requested shape's
element count, and replaces a buffer only when some requested shape's
element count strictly exceeds its old capacity. -/
theorem auto_increase_buffer_size_spec (bufs bufs' : List (String × ℕ))
    (shapes : List (String × List ℕ))
    (h : Gpt2.autoIncreaseBufferSize bufs shapes = some bufs') :
    (∀ k v, OnnxQuant.lookupKey k bufs = some v →
      ∃ v', OnnxQuant.lookupKey k bufs' = some v' ∧ v ≤ v') ∧
    (∀ p, p ∈ shapes →
      ∃ v', OnnxQuant.lookupKey p.1 bufs' = some v' ∧ p.2.prod ≤ v') ∧
    (∀ k v v', OnnxQuant.lookupKey k bufs = some v →
      OnnxQuant.lookupKey k bufs' = some v' → v ≠ v' →
      ∃ p, p ∈ shapes ∧ p.1 = k ∧ v < p.2.prod) :=
  ⟨fun k v hv => Gpt2.autoIncrease_monotone shapes bufs bufs' h k v hv,
   fun p hp => Gpt2.autoIncrease_coverage shapes bufs bufs' h p hp,
   fun k v v' hv hv' hne => Gpt2.autoIncrease_strict shapes bufs bufs' h k v v' hv hv' hne⟩

/-- Witness for C8: growing a 10-element logits buffer for a [3,5]-shaped
request yields a buffer of capacity at least 15. -/
theorem auto_increase_buffer_size_spec_witness :
    ∃ v', OnnxQuant.lookupKey "logits"
      ((Gpt2.autoIncreaseBufferSize [("logits", 10)] [("logits", [3, 5])]).getD []) =
        some v' ∧ ([3, 5] : List ℕ).prod ≤ v' := by
  have h : Gpt2.autoIncreaseBufferSize [("logits", 10)] [("logits", [3, 5])] =
      some [("logits", 15)] := by decide
  have h2 := (auto_increase_buffer_size_spec _ _ _ h).2.1 ("logits", [3, 5]) (by simp)
  rw [h]
  exact h2

/-- C9: every latency sample is stored under bucket key floor(log2 n) + 1
when the cache length n is positive (Nat.log2 being the integer floor of
log2, witnessed by the power-of-two bounds) and under bucket key 0 when
n = 0; the sample is appended at the end of that bucket's sequence
(arrival order) and every other bucket is untouched. -/
theorem gpt2_add_latency_bucket (m : Gpt2.Gpt2Metric) (n : ℕ) (lat : ℚ) :
    (0 < n → Gpt2.latencyBucket n = Nat.log2 n + 1 ∧
      2 ^ Nat.log2 n ≤ n ∧ n < 2 ^ (Nat.log2 n + 1)) ∧
    (n = 0 → Gpt2.latencyBucket n = 0) ∧
    OnnxQuant.lookupKey (Gpt2.latencyBucket n) (Gpt2.addLatency m n lat).seq_len_latency =
      some ((OnnxQuant.lookupKey (Gpt2.latencyBucket n) m.seq_len_latency).getD [] ++ [lat]) ∧
    (∀ k, k ≠ Gpt2.latencyBucket n →
      OnnxQuant.lookupKey k (Gpt2.addLatency m n lat).seq_len_latency =
        OnnxQuant.lookupKey k m.seq_len_latency) := by
  refine ⟨?_, ?_, ?_, ?_⟩
  · intro hn
    refine ⟨by simp [Gpt2.latencyBucket, hn], ?_, ?_⟩
    · rw [Nat.log2_eq_log_two]
      exact Nat.pow_log_le_self 2 (Nat.pos_iff_ne_zero.mp hn)
    · rw [Nat.log2_eq_log_two]
      exact Nat.lt_pow_succ_log_self (by norm_num) n
  · intro hn; simp [Gpt2.latencyBucket, hn]
  · exact Gpt2.lookupKey_bucketAppend_self _ _ _
  · intro k hk; exact Gpt2.lookupKey_bucketAppend_ne _ _ _ _ hk

/-- Witness for C9 at cache length 5 on a concrete metric: the sample lands
in bucket 3 = floor(log2 5) + 1 and bucket 0 is untouched. -/
theorem gpt2_add_latency_bucket_witness :
    Gpt2.latencyBucket 5 = 3 ∧
    OnnxQuant.lookupKey 3 (Gpt2.addLatency Gpt2.exMetric 5 (1/2)).seq_len_latency =
      some [1/2] ∧
    OnnxQuant.lookupKey 0 (Gpt2.addLatency Gpt2.exMetric 5 (1/2)).seq_len_latency =
      OnnxQuant.lookupKey 0 Gpt2.exMetric.seq_len_latency := by
  have h := gpt2_add_latency_bucket Gpt2.exMetric 5 (1/2)
  have hb : Gpt2.latencyBucket 5 = 3 := by simp [Gpt2.latencyBucket, Nat.log2]
  refine ⟨hb, ?_, ?_⟩
  · have h2 := h.2.2.1
    rw [hb] at h2
    simpa [Gpt2.exMetric] using h2
  · exact h.2.2.2 0 (by rw [hb]; decide)

/-- C10: a Gpt2Metric is constructible exactly when 1 < top_k ≤ 100 (the
constructor assertion), every constructed metric carries top_k in that
range, and the embedded metric operations never change top_k. -/
theorem gpt2_metric_top_k_bounds (treatment_name baseline_name : String) (k : ℤ)
    (tl : ℚ) (m : Gpt2.Gpt2Metric) :
    (Gpt2.mkGpt2Metric treatment_name baseline_name k tl = some m →
      1 < m.top_k ∧ m.top_k ≤ 100) ∧
    (¬(1 < k ∧ k ≤ 100) → Gpt2.mkGpt2Metric treatment_name baseline_name k tl = none) ∧
    (∀ n lat, (Gpt2.addLatency m n lat).top_k = m.top_k) ∧
    (∀ b, (Gpt2.startBatch m b).top_k = m.top_k) := by
  refine ⟨?_, ?_, ?_, ?_⟩
  · intro h
    unfold Gpt2.mkGpt2Metric at h
    split_ifs at h with hc
    · cases h; exact hc
  · intro hc
    unfold Gpt2.mkGpt2Metric
    exact if_neg hc
  · intro n lat; rfl
  · intro b; rfl

/-- Witness for C10: top_k = 20 constructs exMetric within bounds,
top_k = 101 fails the assertion, and addLatency preserves top_k. -/
theorem gpt2_metric_top_k_bounds_witness :
    (1 < Gpt2.exMetric.top_k ∧ Gpt2.exMetric.top_k ≤ 100) ∧
    Gpt2.mkGpt2Metric "Onnx" "Torch" 101 0 = none ∧
    (Gpt2.addLatency Gpt2.exMetric 4 1).top_k = Gpt2.exMetric.top_k := by
  refine ⟨?_, ?_, ?_⟩
  · exact (gpt2_metric_top_k_bounds "Onnx" "Torch" 20 0 Gpt2.exMetric).1 (by decide)
  · exact (gpt2_metric_top_k_bounds "Onnx" "Torch" 101 0 Gpt2.exMetric).2.1 (by decide)
  · exact (gpt2_metric_top_k_bounds "Onnx" "Torch" 20 0 Gpt2.exMetric).2.2.1 4 1

/-- C6: when the enclosing quantizer has no recorded quantization
parameters for the Conv node's output tensor, QLinearConv.quantize raises
the missing-quantization-parameters error carrying the output tensor name
and the node name, and the quantizer's emitted-node list new_nodes is left
unchanged. -/
theorem qlinear_missing_output_params (q0 : OnnxQuant.Quantizer)
    (node : OnnxQuant.NodeProto) (hop : node.op_type = "Conv")
    (hout : OnnxQuant.lookupKey (OnnxQuant.outputName node 0) q0.qparams = none) :
    (OnnxQuant.qlinearConvQuantize q0 node).2 =
      some (OnnxQuant.QuantError.missingQuantParams (OnnxQuant.outputName node 0) node.name) ∧
    (OnnxQuant.qlinearConvQuantize q0 node).1.new_nodes = q0.new_nodes := by
  have hscrut : OnnxQuant.getQuantizationParamsModelled
      ((OnnxQuant.qlinearConvQuantizeBias
        ((OnnxQuant.qlinearConvQuantizeWeights q0 node).2) node).2)
      (OnnxQuant.outputName node 0) = none := by
    simp only [OnnxQuant.getQuantizationParamsModelled,
      OnnxQuant.qlinearConvQuantizeBias_qparams, OnnxQuant.qlinearConvQuantizeWeights_qparams]
    exact hout
  simp only [OnnxQuant.qlinearConvQuantize]
  rw [if_neg (by simp [hop])]
  rw [hscrut]
  refine ⟨rfl, ?_⟩
  simp only [OnnxQuant.qlinearConvQuantizeBias_new_nodes,
    OnnxQuant.qlinearConvQuantizeWeights_new_nodes]

/-- Witness for C6: quantizing a biased Conv under a quantizer with no
recorded parameters for output Y raises the error naming Y and node c, and
emits no node. -/
theorem qlinear_missing_output_params_witness :
    (OnnxQuant.qlinearConvQuantize OnnxQuant.exQuantizer OnnxQuant.exConvBias).2 =
      some (OnnxQuant.QuantError.missingQuantParams "Y" "c") ∧
    (OnnxQuant.qlinearConvQuantize OnnxQuant.exQuantizer OnnxQuant.exConvBias).1.new_nodes = [] := by
  have h := qlinear_missing_output_params OnnxQuant.exQuantizer OnnxQuant.exConvBias rfl rfl
  exact ⟨h.1, h.2⟩

/-- C3 (amended): the expected-initializer check of the ConvInteger rewrite
runs only on the bias path: for a Conv node with a bias (third input) whose
weight input is not a graph initializer, quantize raises the
expected-initializer error naming the weight tensor and appends nothing to
the quantizer's emitted nodes or added initializers. -/
theorem convinteger_nonconstant_weight (q0 : OnnxQuant.Quantizer)
    (node : OnnxQuant.NodeProto) (hop : node.op_type = "Conv")
    (hb3 : node.inputs.length = 3)
    (hw : OnnxQuant.lookupKey (OnnxQuant.inputName node 1) q0.inits = none) :
    (OnnxQuant.convIntegerQuantize q0 node).2 =
      some (OnnxQuant.QuantError.expectedInitializer (OnnxQuant.inputName node 1)) ∧
    (OnnxQuant.convIntegerQuantize q0 node).1.new_nodes = q0.new_nodes ∧
    (OnnxQuant.convIntegerQuantize q0 node).1.new_inits = q0.new_inits := by
  have hlen : (OnnxQuant.quantizeInputsModelled q0 node [0, 1]).1.2.2.1.length = 2 := by
    simpa using OnnxQuant.quantizeInputsModelled_scale_length node [0, 1] q0
  have hw1 : OnnxQuant.lookupKey (OnnxQuant.inputName node 1)
      ((OnnxQuant.quantizeInputsModelled q0 node [0, 1]).2).inits = none := by
    simp only [OnnxQuant.quantizeInputsModelled_inits]
    exact hw
  simp only [OnnxQuant.convIntegerQuantize]
  rw [if_neg (by simp [hop])]
  rw [if_neg (by simp [hlen])]
  rw [if_pos hb3]
  rw [OnnxQuant.convIntegerAddBias_err _ _ _ _ hw1]
  refine ⟨rfl, ?_, ?_⟩ <;> simp

/-- Witness for C3's amended statement: a biased Conv with non-initializer
weight W fails with the expected-initializer error naming W and emits
nothing. -/
theorem convinteger_nonconstant_weight_witness :
    (OnnxQuant.convIntegerQuantize OnnxQuant.exQuantizer OnnxQuant.exConvBias).2 =
      some (OnnxQuant.QuantError.expectedInitializer "W") ∧
    (OnnxQuant.convIntegerQuantize OnnxQuant.exQuantizer OnnxQuant.exConvBias).1.new_nodes = [] := by
  have h := convinteger_nonconstant_weight OnnxQuant.exQuantizer OnnxQuant.exConvBias rfl rfl rfl
  exact ⟨h.1, h.2.1⟩

/-- Counterexample to C3 as stated: a bias-free Conv whose weight W is not
an initializer is rewritten without any error — the rewrite emits its full
6-node replacement subgraph — so the expected-initializer error is not
raised regardless of the bias input. -/
theorem convinteger_nonconstant_weight_counterexample :
    (OnnxQuant.convIntegerQuantize OnnxQuant.exQuantizer OnnxQuant.exConvNoBias).2 = none ∧
    (OnnxQuant.convIntegerQuantize OnnxQuant.exQuantizer
      OnnxQuant.exConvNoBias).1.new_nodes.length = 6 ∧
    OnnxQuant.lookupKey "W" OnnxQuant.exQuantizer.inits = none := by
  exact ⟨rfl, rfl, rfl⟩

/-- C5 (amended): within one pass, for two unnamed Conv rewrites sharing
the same data and weight inputs A and B (hence the same two scale
tensors), the scales multiply node — whose derived name is then
A_scale_B_scale_mul — is emitted exactly once: the second rewrite finds it
by that name among the already-emitted nodes and reuses it. (When a Conv
node has a non-empty name the derived name comes from the node name
instead, so distinct named nodes each emit their own multiply.) -/
theorem convinteger_scales_mul_memoized (st : OnnxQuant.Quantizer)
    (hma : OnnxQuant.lookupKey "A" st.quantized_value_map = none)
    (hmb : OnnxQuant.lookupKey "B" st.quantized_value_map = none)
    (hnn : OnnxQuant.findByName "A_scale_B_scale_mul" st.new_nodes = none) :
    ((OnnxQuant.convIntegerQuantize
        (OnnxQuant.convIntegerQuantize st OnnxQuant.exConvU1).1
        OnnxQuant.exConvU2).1.new_nodes.filter
      (fun nd => decide (nd.name = "A_scale_B_scale_mul"))).length = 1 := by
  have hfilter : st.new_nodes.filter (fun nd => decide (nd.name = "A_scale_B_scale_mul")) = [] :=
    OnnxQuant.findByName_none_filter _ _ hnn
  simp [OnnxQuant.convIntegerQuantize, OnnxQuant.quantizeInputsModelled,
    OnnxQuant.quantizeTensorModelled, OnnxQuant.getMulNode,
    OnnxQuant.inputName, OnnxQuant.outputName,
    OnnxQuant.findByName_append, OnnxQuant.exConvU1, OnnxQuant.exConvU2,
    hma, hmb, hnn, hfilter, List.filter_append, OnnxQuant.findByName]

/-- Witness for C5's amended statement: from an empty quantizer, rewriting
the two unnamed Convs sharing inputs A and B leaves exactly one node named
A_scale_B_scale_mul. -/
theorem convinteger_scales_mul_memoized_witness :
    ((OnnxQuant.convIntegerQuantize
        (OnnxQuant.convIntegerQuantize OnnxQuant.exQuantizer OnnxQuant.exConvU1).1
        OnnxQuant.exConvU2).1.new_nodes.filter
      (fun nd => decide (nd.name = "A_scale_B_scale_mul"))).length = 1 :=
  convinteger_scales_mul_memoized OnnxQuant.exQuantizer rfl rfl rfl

/-- Counterexample to C5 as stated: two Conv nodes named c1 and c2 sharing
the same two input scale tensors A_scale and B_scale get node-name-derived
multiply names (c1_quant_scales_mul, c2_quant_scales_mul), so the second
rewrite does not find the first multiply and two scales-multiply nodes are
emitted. -/
theorem convinteger_scales_mul_counterexample :
    ((OnnxQuant.convIntegerQuantize
        (OnnxQuant.convIntegerQuantize OnnxQuant.exQuantizer OnnxQuant.exConvN1).1
        OnnxQuant.exConvN2).1.new_nodes.filter
      (fun nd => decide (nd.op_type = "Mul" ∧ nd.inputs = ["A_scale", "B_scale"]))).length = 2 := by
  rfl

namespace OnnxQuant

theorem qlinearConvQuantizeWeights_names (q0 : Quantizer) (node : NodeProto)
    (h01 : inputName node 0 ≠ inputName node 1)
    (hm0 : lookupKey (inputName node 0) q0.quantized_value_map = none)
    (hm1 : lookupKey (inputName node 1) q0.quantized_value_map = none) :
    (qlinearConvQuantizeWeights q0 node).1.1 =
      [inputName node 0 ++ "_quantized", inputName node 1 ++ "_quantized"] ∧
    (qlinearConvQuantizeWeights q0 node).1.2.1 =
      [inputName node 0 ++ "_zero_point", inputName node 1 ++ "_zero_point"] ∧
    (qlinearConvQuantizeWeights q0 node).1.2.2.1 =
      [inputName node 0 ++ "_scale", inputName node 1 ++ "_scale"] := by
  unfold qlinearConvQuantizeWeights
  split <;>
    simp [quantizeInputsModelled, quantizeTensorModelled, quantizeWeightPerChannelModelled,
      hm0, hm1, h01]

theorem qlinearConvQuantizeWeights_map (q0 : Quantizer) (node : NodeProto)
    (h01 : inputName node 0 ≠ inputName node 1)
    (hm0 : lookupKey (inputName node 0) q0.quantized_value_map = none)
    (hm1 : lookupKey (inputName node 1) q0.quantized_value_map = none) :
    ∃ cw, (qlinearConvQuantizeWeights q0 node).2.quantized_value_map =
      (inputName node 1, ⟨inputName node 1, inputName node 1 ++ "_quantized",
        inputName node 1 ++ "_scale", inputName node 1 ++ "_zero_point", cw, 0⟩) ::
      (inputName node 0, ⟨inputName node 0, inputName node 0 ++ "_quantized",
        inputName node 0 ++ "_scale", inputName node 0 ++ "_zero_point", 1, 0⟩) ::
      q0.quantized_value_map := by
  unfold qlinearConvQuantizeWeights
  split
  · refine ⟨(match lookupKey (inputName node 1) q0.inits with
      | some dims => dims.getD 0 1
      | none => 1), ?_⟩
    simp [quantizeInputsModelled, quantizeTensorModelled, quantizeWeightPerChannelModelled,
      hm0, hm1, h01]
  · exact ⟨1, by
      simp [quantizeInputsModelled, quantizeTensorModelled, hm0, hm1, h01]⟩

theorem qlinearConvQuantizeBias_fresh (q1 : Quantizer) (node : NodeProto)
    (hb3 : node.inputs.length = 3)
    (hbm : lookupKey (inputName node 2) q1.quantized_value_map = none) :
    qlinearConvQuantizeBias q1 node =
      (inputName node 2 ++ "_quantized",
       { q1 with quantized_value_map :=
          (inputName node 2, ⟨inputName node 2, inputName node 2 ++ "_quantized",
            inputName node 0 ++ "_scale_" ++ inputName node 1 ++ "_scale", "", 1, 0⟩) ::
            q1.quantized_value_map }) := by
  unfold qlinearConvQuantizeBias
  rw [if_pos hb3]
  simp only [quantizeBiasStaticModelled, hbm]

theorem qlinearConvQuantizeBias_absent (q1 : Quantizer) (node : NodeProto)
    (hb3 : ¬node.inputs.length = 3) :
    qlinearConvQuantizeBias q1 node = ("", q1) := by
  unfold qlinearConvQuantizeBias
  rw [if_neg hb3]

end OnnxQuant

/-- C1: on a successful fused-conv rewrite, the emitted QLinearConv node is
the last appended node and its input list is exactly, in order: quantized
data, data scale, data zero-point, quantized weight, weight scale, weight
zero-point, output scale, output zero-point, followed by the quantized bias
exactly when the original Conv node has a third (bias) input. -/
theorem qlinear_conv_input_order (q0 : OnnxQuant.Quantizer) (node : OnnxQuant.NodeProto)
    (p : OnnxQuant.QParams) (hop : node.op_type = "Conv")
    (h01 : OnnxQuant.inputName node 0 ≠ OnnxQuant.inputName node 1)
    (hm0 : OnnxQuant.lookupKey (OnnxQuant.inputName node 0) q0.quantized_value_map = none)
    (hm1 : OnnxQuant.lookupKey (OnnxQuant.inputName node 1) q0.quantized_value_map = none)
    (hb2 : node.inputs.length = 3 →
      OnnxQuant.inputName node 2 ≠ OnnxQuant.inputName node 0 ∧
      OnnxQuant.inputName node 2 ≠ OnnxQuant.inputName node 1 ∧
      OnnxQuant.lookupKey (OnnxQuant.inputName node 2) q0.quantized_value_map = none)
    (hp : OnnxQuant.lookupKey (OnnxQuant.outputName node 0) q0.qparams = some p) :
    (OnnxQuant.qlinearConvQuantize q0 node).2 = none ∧
    (OnnxQuant.qlinearConvQuantize q0 node).1.new_nodes.getLast? =
      some ⟨"QLinearConv", (if node.name ≠ "" then node.name ++ "_quant" else ""),
        [OnnxQuant.inputName node 0 ++ "_quantized", OnnxQuant.inputName node 0 ++ "_scale",
         OnnxQuant.inputName node 0 ++ "_zero_point",
         OnnxQuant.inputName node 1 ++ "_quantized", OnnxQuant.inputName node 1 ++ "_scale",
         OnnxQuant.inputName node 1 ++ "_zero_point",
         p.scale_name, p.zp_name] ++
          (if node.inputs.length = 3 then [OnnxQuant.inputName node 2 ++ "_quantized"] else []),
        [OnnxQuant.outputName node 0 ++ "_quantized"], node.attrs⟩ := by
  obtain ⟨hn1, hn2, hn3⟩ := OnnxQuant.qlinearConvQuantizeWeights_names q0 node h01 hm0 hm1
  obtain ⟨cw, hmap⟩ := OnnxQuant.qlinearConvQuantizeWeights_map q0 node h01 hm0 hm1
  have hqp : OnnxQuant.getQuantizationParamsModelled
      ((OnnxQuant.qlinearConvQuantizeBias
        ((OnnxQuant.qlinearConvQuantizeWeights q0 node).2) node).2)
      (OnnxQuant.outputName node 0) = some p := by
    simp only [OnnxQuant.getQuantizationParamsModelled,
      OnnxQuant.qlinearConvQuantizeBias_qparams, OnnxQuant.qlinearConvQuantizeWeights_qparams]
    exact hp
  simp only [OnnxQuant.qlinearConvQuantize]
  rw [if_neg (by simp [hop])]
  rw [hqp]
  refine ⟨rfl, ?_⟩
  by_cases hb3 : node.inputs.length = 3
  · obtain ⟨hbd, hbw, hbase⟩ := hb2 hb3
    have hbm : OnnxQuant.lookupKey (OnnxQuant.inputName node 2)
        (OnnxQuant.qlinearConvQuantizeWeights q0 node).2.quantized_value_map = none := by
      rw [hmap]
      simp [Ne.symm hbw, Ne.symm hbd, hbase]
    rw [OnnxQuant.qlinearConvQuantizeBias_fresh _ node hb3 hbm]
    simp [hn1, hn2, hn3, hb3, ← List.append_assoc, List.getLast?_concat]
  · rw [OnnxQuant.qlinearConvQuantizeBias_absent _ node hb3]
    simp [hn1, hn2, hn3, hb3, ← List.append_assoc, List.getLast?_concat]

/-- Witness for C1: the fused node for the biased Conv c has the nine
inputs in the specified order. -/
theorem qlinear_conv_input_order_witness :
    (OnnxQuant.qlinearConvQuantize OnnxQuant.exQuantizerPT OnnxQuant.exConvBias).2 = none ∧
    (OnnxQuant.qlinearConvQuantize OnnxQuant.exQuantizerPT
      OnnxQuant.exConvBias).1.new_nodes.getLast? =
      some ⟨"QLinearConv", "c_quant",
        ["X_quantized", "X_scale", "X_zero_point", "W_quantized", "W_scale", "W_zero_point",
         "Y_sc", "Y_zp", "Bc_quantized"], ["Y_quantized"], []⟩ := by
  have h := qlinear_conv_input_order OnnxQuant.exQuantizerPT OnnxQuant.exConvBias ⟨"Y_sc", "Y_zp"⟩
    rfl (by decide) rfl rfl (fun _ => ⟨by decide, by decide, rfl⟩) rfl
  refine ⟨h.1, ?_⟩
  rw [h.2]
  rfl

namespace OnnxQuant

@[simp] theorem qdqQuantizeTensorModelled_per_channel (q : QDQQuantizer) (t : String) :
    (qdqQuantizeTensorModelled q t).per_channel = q.per_channel := by
  cases h : lookupKey t q.tensors_to_quantize <;> simp [qdqQuantizeTensorModelled, h]

@[simp] theorem qdqQuantizeTensorModelled_inits (q : QDQQuantizer) (t : String) :
    (qdqQuantizeTensorModelled q t).inits = q.inits := by
  cases h : lookupKey t q.tensors_to_quantize <;> simp [qdqQuantizeTensorModelled, h]

@[simp] theorem qdqQuantizeBiasTensorModelled_tensors (q : QDQQuantizer) (b i w : String) :
    (qdqQuantizeBiasTensorModelled q b i w).tensors_to_quantize = q.tensors_to_quantize := rfl

theorem qdqQuantizeTensorModelled_lookup_ne (q : QDQQuantizer) (t t' : String)
    (h : t' ≠ t) :
    lookupKey t' (qdqQuantizeTensorModelled q t).tensors_to_quantize =
      lookupKey t' q.tensors_to_quantize := by
  cases hl : lookupKey t q.tensors_to_quantize with
  | some v => simp [qdqQuantizeTensorModelled, hl]
  | none =>
      simp [qdqQuantizeTensorModelled, hl, lookupKey_append, Ne.symm h]
      cases lookupKey t' q.tensors_to_quantize <;> simp [Ne.symm h]

theorem qdqQuantizeTensorModelled_lookup_self (q : QDQQuantizer) (t : String)
    (h : lookupKey t q.tensors_to_quantize = none) :
    lookupKey t (qdqQuantizeTensorModelled q t).tensors_to_quantize = some (1, 0) := by
  simp [qdqQuantizeTensorModelled, h, lookupKey_append]

theorem qdqQuantizeTensorPerChannelModelled_lookup_self (q : QDQQuantizer) (t : String)
    (axis : ℕ) (h : lookupKey t q.tensors_to_quantize = none) :
    lookupKey t (qdqQuantizeTensorPerChannelModelled q t axis).tensors_to_quantize =
      some ((match lookupKey t q.inits with
        | some dims => dims.getD axis 1
        | none => 1), axis) := by
  simp [qdqQuantizeTensorPerChannelModelled, h, lookupKey_append]

theorem qlinearConvQuantizeWeights_map_pc (q0 : Quantizer) (node : NodeProto)
    (dims : List ℕ)
    (h01 : inputName node 0 ≠ inputName node 1)
    (hm0 : lookupKey (inputName node 0) q0.quantized_value_map = none)
    (hm1 : lookupKey (inputName node 1) q0.quantized_value_map = none)
    (hpc : q0.per_channel = true)
    (hdims : lookupKey (inputName node 1) q0.inits = some dims) :
    lookupKey (inputName node 1)
        (qlinearConvQuantizeWeights q0 node).2.quantized_value_map =
      some ⟨inputName node 1, inputName node 1 ++ "_quantized",
        inputName node 1 ++ "_scale", inputName node 1 ++ "_zero_point",
        dims.getD 0 1, 0⟩ := by
  have hcond : (isInputAWeight q0 (inputName node 1) && q0.per_channel) = true := by
    simp [isInputAWeight, hdims, hpc]
  unfold qlinearConvQuantizeWeights
  rw [if_pos hcond]
  simp [quantizeInputsModelled, quantizeTensorModelled, quantizeWeightPerChannelModelled,
    hm0, hm1, h01, hdims]

theorem qlinearConvQuantizeWeights_map_pt (q0 : Quantizer) (node : NodeProto)
    (h01 : inputName node 0 ≠ inputName node 1)
    (hm0 : lookupKey (inputName node 0) q0.quantized_value_map = none)
    (hm1 : lookupKey (inputName node 1) q0.quantized_value_map = none)
    (hcond : (isInputAWeight q0 (inputName node 1) && q0.per_channel) = false) :
    lookupKey (inputName node 1)
        (qlinearConvQuantizeWeights q0 node).2.quantized_value_map =
      some ⟨inputName node 1, inputName node 1 ++ "_quantized",
        inputName node 1 ++ "_scale", inputName node 1 ++ "_zero_point", 1, 0⟩ := by
  unfold qlinearConvQuantizeWeights
  rw [if_neg (by simp [hcond])]
  simp [quantizeInputsModelled, quantizeTensorModelled, hm0, hm1, h01]

end OnnxQuant

/-- C7: with per-channel quantization enabled, the fused-operator path
records the Conv weight quantized per output channel along channel axis 0
(one scale/zero-point per output channel, the weight's dimension at axis
0), and the quantize/dequantize-marker path marks the weight the same way;
with per-channel disabled — or, in the fused path, when the weight is not
a known weight tensor — the weight is quantized per-tensor with a single
scalar scale/zero-point pair. -/
theorem conv_weight_per_channel_axis0 (q0 : OnnxQuant.Quantizer)
    (qd0 : OnnxQuant.QDQQuantizer) (node : OnnxQuant.NodeProto) (dims : List ℕ)
    (hop : node.op_type = "Conv")
    (h01 : OnnxQuant.inputName node 0 ≠ OnnxQuant.inputName node 1)
    (hm0 : OnnxQuant.lookupKey (OnnxQuant.inputName node 0) q0.quantized_value_map = none)
    (hm1 : OnnxQuant.lookupKey (OnnxQuant.inputName node 1) q0.quantized_value_map = none)
    (hqd1 : OnnxQuant.lookupKey (OnnxQuant.inputName node 1) qd0.tensors_to_quantize = none) :
    (q0.per_channel = true →
      OnnxQuant.lookupKey (OnnxQuant.inputName node 1) q0.inits = some dims →
      (OnnxQuant.lookupKey (OnnxQuant.inputName node 1)
        (OnnxQuant.qlinearConvQuantizeWeights q0 node).2.quantized_value_map).map
          (fun qv => (qv.channels, qv.axis)) = some (dims.getD 0 1, 0)) ∧
    (q0.per_channel = false →
      (OnnxQuant.lookupKey (OnnxQuant.inputName node 1)
        (OnnxQuant.qlinearConvQuantizeWeights q0 node).2.quantized_value_map).map
          (fun qv => (qv.channels, qv.axis)) = some (1, 0)) ∧
    (OnnxQuant.lookupKey (OnnxQuant.inputName node 1) q0.inits = none →
      (OnnxQuant.lookupKey (OnnxQuant.inputName node 1)
        (OnnxQuant.qlinearConvQuantizeWeights q0 node).2.quantized_value_map).map
          (fun qv => (qv.channels, qv.axis)) = some (1, 0)) ∧
    (qd0.per_channel = true →
      OnnxQuant.lookupKey (OnnxQuant.inputName node 1) qd0.inits = some dims →
      OnnxQuant.lookupKey (OnnxQuant.inputName node 1)
        (OnnxQuant.qdqConvQuantize qd0 node).1.tensors_to_quantize =
          some (dims.getD 0 1, 0)) ∧
    (qd0.per_channel = false →
      OnnxQuant.lookupKey (OnnxQuant.inputName node 1)
        (OnnxQuant.qdqConvQuantize qd0 node).1.tensors_to_quantize = some (1, 0)) := by
  have hq1w : OnnxQuant.lookupKey (OnnxQuant.inputName node 1)
      (OnnxQuant.qdqQuantizeTensorModelled qd0 (OnnxQuant.inputName node 0)).tensors_to_quantize =
        none := by
    rw [OnnxQuant.qdqQuantizeTensorModelled_lookup_ne qd0 _ _ (Ne.symm h01)]
    exact hqd1
  refine ⟨?_, ?_, ?_, ?_, ?_⟩
  · intro hpc hdims
    rw [OnnxQuant.qlinearConvQuantizeWeights_map_pc q0 node dims h01 hm0 hm1 hpc hdims]
    rfl
  · intro hpt
    rw [OnnxQuant.qlinearConvQuantizeWeights_map_pt q0 node h01 hm0 hm1 (by simp [hpt])]
    rfl
  · intro hnw
    rw [OnnxQuant.qlinearConvQuantizeWeights_map_pt q0 node h01 hm0 hm1
      (by simp [OnnxQuant.isInputAWeight, hnw])]
    rfl
  · intro hpc hdims
    simp only [OnnxQuant.qdqConvQuantize]
    rw [if_neg (by simp [hop])]
    simp only [OnnxQuant.qdqQuantizeTensorModelled_per_channel, hpc, if_true]
    have hself := OnnxQuant.qdqQuantizeTensorPerChannelModelled_lookup_self
      (OnnxQuant.qdqQuantizeTensorModelled qd0 (OnnxQuant.inputName node 0))
      (OnnxQuant.inputName node 1) 0 hq1w
    rw [OnnxQuant.qdqQuantizeTensorModelled_inits, hdims] at hself
    by_cases hb3 : node.inputs.length = 3 <;>
      simp [hb3, hself]
  · intro hpt
    simp only [OnnxQuant.qdqConvQuantize]
    rw [if_neg (by simp [hop])]
    simp only [OnnxQuant.qdqQuantizeTensorModelled_per_channel, hpt, if_false]
    have hself := OnnxQuant.qdqQuantizeTensorModelled_lookup_self
      (OnnxQuant.qdqQuantizeTensorModelled qd0 (OnnxQuant.inputName node 0))
      (OnnxQuant.inputName node 1) hq1w
    by_cases hb3 : node.inputs.length = 3 <;>
      simp [hb3, hself]

/-- Witness for C7: with dims [8,3,3,3] for weight W, per-channel mode
records 8 scale/zero-point pairs at axis 0 in both paths; per-tensor mode
records a single pair. -/
theorem conv_weight_per_channel_axis0_witness :
    (OnnxQuant.lookupKey "W"
      (OnnxQuant.qlinearConvQuantizeWeights OnnxQuant.exQuantizerPC
        OnnxQuant.exConvNoBias).2.quantized_value_map).map
        (fun qv => (qv.channels, qv.axis)) = some (8, 0) ∧
    (OnnxQuant.lookupKey "W"
      (OnnxQuant.qlinearConvQuantizeWeights OnnxQuant.exQuantizerPT
        OnnxQuant.exConvNoBias).2.quantized_value_map).map
        (fun qv => (qv.channels, qv.axis)) = some (1, 0) ∧
    OnnxQuant.lookupKey "W"
      (OnnxQuant.qdqConvQuantize OnnxQuant.exQDQPC
        OnnxQuant.exConvNoBias).1.tensors_to_quantize = some (8, 0) ∧
    OnnxQuant.lookupKey "W"
      (OnnxQuant.qdqConvQuantize OnnxQuant.exQDQPT
        OnnxQuant.exConvNoBias).1.tensors_to_quantize = some (1, 0) := by
  have h1 := conv_weight_per_channel_axis0 OnnxQuant.exQuantizerPC OnnxQuant.exQDQPC
    OnnxQuant.exConvNoBias [8, 3, 3, 3] rfl (by decide) rfl rfl rfl
  have h2 := conv_weight_per_channel_axis0 OnnxQuant.exQuantizerPT OnnxQuant.exQDQPT
    OnnxQuant.exConvNoBias [8, 3, 3, 3] rfl (by decide) rfl rfl rfl
  exact ⟨h1.1 rfl rfl, h2.2.1 rfl, h1.2.2.2.1 rfl rfl, h2.2.2.2.2 rfl⟩
